/-
  Shallow embedding of the AP_Filesystem FATFS and ROMFS backends
  (libraries/AP_Filesystem/AP_Filesystem_FATFS.cpp,
   libraries/AP_Filesystem/AP_Filesystem_ROMFS.cpp).

  Machine integers are modelled as Nat/Int; backend (FatFS) calls are
  modelled as oracle parameters supplying their results; errno is threaded
  explicitly through return values.
-/
import Mathlib

namespace ArduFS

/-! ### POSIX errno constants (standard Linux values, as used by the code) -/

def EPERM : Nat := 1
def ENOENT : Nat := 2
def EIO : Nat := 5
def ENXIO : Nat := 6
def EBADF : Nat := 9
def ENOMEM : Nat := 12
def EACCES : Nat := 13
def EBUSY : Nat := 16
def EEXIST : Nat := 17
def EINVAL : Nat := 22
def ENFILE : Nat := 23
def EMFILE : Nat := 24
def ENOSPC : Nat := 28
def EROFS : Nat := 30
def EBADMSG : Nat := 74

/-! ### FatFS FRESULT codes (values of the FRESULT enum in ff.h).
    Modelled as Nat so that codes outside the enum ("unknown future
    codes") can be given to the translator. -/

def FR_OK : Nat := 0
def FR_DISK_ERR : Nat := 1
def FR_INT_ERR : Nat := 2
def FR_NOT_READY : Nat := 3
def FR_NO_FILE : Nat := 4
def FR_NO_PATH : Nat := 5
def FR_INVALID_NAME : Nat := 6
def FR_DENIED : Nat := 7
def FR_EXIST : Nat := 8
def FR_INVALID_OBJECT : Nat := 9
def FR_WRITE_PROTECTED : Nat := 10
def FR_INVALID_DRIVE : Nat := 11
def FR_NOT_ENABLED : Nat := 12
def FR_NO_FILESYSTEM : Nat := 13
def FR_MKFS_ABORTED : Nat := 14
def FR_TIMEOUT : Nat := 15
def FR_LOCKED : Nat := 16
def FR_NOT_ENOUGH_CORE : Nat := 17
def FR_TOO_MANY_OPEN_FILES : Nat := 18
def FR_INVALID_PARAMETER : Nat := 19

/-! ### FatFS open-mode bits (ff.h) -/

def FA_READ : Nat := 0x01
def FA_WRITE : Nat := 0x02
def FA_CREATE_NEW : Nat := 0x04
def FA_CREATE_ALWAYS : Nat := 0x08
def FA_OPEN_ALWAYS : Nat := 0x10

/-! ### POSIX open(2) flag bits -/

def O_RDONLY : Nat := 0
def O_WRONLY : Nat := 1
def O_RDWR : Nat := 2
def O_ACCMODE : Nat := 3
def O_CREAT : Nat := 64
def O_TRUNC : Nat := 512
def O_APPEND : Nat := 1024

/-- MAX_IO_SIZE in AP_Filesystem_FATFS.cpp: chunk clamp for non-DMA-safe
    buffers. -/
def MAX_IO_SIZE : Nat := 4096

/-- MAX_FILES: fixed capacity of the FATFS file handle table. -/
def MAX_FILES : Nat := 16

/-! ### fatfs_to_errno (AP_Filesystem_FATFS.cpp lines 119-184)
    The switch over FRESULT; the fall-through return is the default for
    any code outside the enum. -/

def fatfs_to_errno (result : Nat) : Nat :=
  if result = FR_OK then 0
  else if result = FR_DISK_ERR then EIO
  else if result = FR_INT_ERR then EPERM
  else if result = FR_NOT_READY then EBUSY
  else if result = FR_NO_FILE then ENOENT
  else if result = FR_NO_PATH then ENOENT
  else if result = FR_INVALID_NAME then EINVAL
  else if result = FR_DENIED then EACCES
  else if result = FR_EXIST then EEXIST
  else if result = FR_INVALID_OBJECT then EINVAL
  else if result = FR_WRITE_PROTECTED then EROFS
  else if result = FR_INVALID_DRIVE then ENXIO
  else if result = FR_NOT_ENABLED then ENOSPC
  else if result = FR_NO_FILESYSTEM then ENXIO
  else if result = FR_MKFS_ABORTED then EINVAL
  else if result = FR_TIMEOUT then EBUSY
  else if result = FR_LOCKED then EBUSY
  else if result = FR_NOT_ENOUGH_CORE then ENOMEM
  else if result = FR_TOO_MANY_OPEN_FILES then EMFILE
  else if result = FR_INVALID_PARAMETER then EINVAL
  else EBADMSG

/-! ### The FATFS handle table (AP_Filesystem_FATFS.cpp lines 42-117)

    `FIL` keeps the two fields of the FatFS file object that this driver
    reads or writes directly (`fptr`, `flag`); a freshly `memset` object is
    `FIL.zero`.  `FAT_FILE` is one table entry; the table is a list of
    `Option FAT_FILE` of length `MAX_FILES` (`NULL` entry = `none`). -/

structure FIL where
  fptr : Nat
  flag : Nat
  deriving Repr, DecidableEq

def FIL.zero : FIL := { fptr := 0, flag := 0 }

structure FAT_FILE where
  fobj : FIL
  name : String
  deriving Repr, DecidableEq

abbrev Table := List (Option FAT_FILE)

/-- Index of the first `NULL` slot, scanning from 0 as the `for` loop in
    `new_file_descriptor` does. -/
def firstFree : Table → Option Nat
  | [] => none
  | none :: _ => some 0
  | some _ :: rest => (firstFree rest).map (· + 1)

/-- `new_file_descriptor` (lines 53-79).  `allocOk` is the oracle for the
    `calloc`/`strdup` pair succeeding.  Returns (fd, errno, table). -/
def new_file_descriptor (allocOk : Bool) (table : Table) (pathname : String) :
    Int × Nat × Table :=
  match firstFree table with
  | some i =>
      if allocOk then
        (Int.ofNat i, 0, table.set i (some { fobj := FIL.zero, name := pathname }))
      else
        (-1, ENOMEM, table)
  | none => (-1, ENFILE, table)

/-- `fileno_to_stream` (lines 81-95): range check then occupancy check. -/
def fileno_to_stream (table : Table) (fileno : Int) : Option FAT_FILE :=
  if fileno < 0 ∨ MAX_FILES ≤ fileno then none
  else (table.getD fileno.toNat none)

/-- `free_file_descriptor` (lines 97-105): clears the slot if occupied. -/
def free_file_descriptor (table : Table) (fileno : Int) : Table :=
  match fileno_to_stream table fileno with
  | some _ => table.set fileno.toNat none
  | none => table

/-! ### remount_file_system (lines 196-228)

    Oracles: `retryOk` is the result of `sdcard_retry()`; `reopenRes path
    flags` is the `FRESULT` of the `f_open` that reopens a table entry.  A
    successful `f_open` leaves the object with `fptr = 0` and the given
    mode flags, and the subsequent `f_lseek` restores the captured offset;
    a failed `f_open` leaves the freshly `memset` object.  Returns
    (success, remount_needed, table). -/

def remount_slot (reopenRes : String → Nat → Nat) (f : FAT_FILE) : FAT_FILE :=
  let offset := f.fobj.fptr
  let flags0 := f.fobj.flag &&& (FA_READ ||| FA_WRITE)
  let flags := if flags0 &&& FA_WRITE ≠ 0 then flags0 ||| FA_OPEN_ALWAYS else flags0
  if reopenRes f.name flags = FR_OK then
    { f with fobj := { fptr := offset, flag := flags } }
  else
    { f with fobj := FIL.zero }

def remount_file_system (retryOk : Bool) (reopenRes : String → Nat → Nat)
    (table : Table) : Bool × Bool × Table :=
  if !retryOk then
    (false, true, table)
  else
    (true, false, table.map (fun slot => slot.map (remount_slot reopenRes)))

/-- The `CHECK_REMOUNT()` macro (line 187): when `remount_needed` is set,
    a failed `remount_file_system` makes the operation fail with `EIO`
    before any backend call.  Returns `none` when the operation must fail,
    otherwise the updated (remount_needed, table). -/
def check_remount (remountNeeded retryOk : Bool) (reopenRes : String → Nat → Nat)
    (table : Table) : Option (Bool × Table) :=
  if remountNeeded then
    match remount_file_system retryOk reopenRes table with
    | (true, rn, t) => some (rn, t)
    | (false, _, _) => none
  else
    some (remountNeeded, table)

/-! ### Chunked read loop (lines 340-366)

    `resp k` is the oracle for the k-th `f_read` backend call: its
    `FRESULT` and the byte count it stores in `size`.  `safe off` models
    `mem_is_dma_safe` for the buffer cursor advanced by `off` bytes.
    Returns (return value, errno, log of backend calls made). -/

structure Chunk where
  n : Nat      -- bytes requested from the backend for this chunk
  size : Nat   -- bytes the backend reports moved
  res : Nat    -- FRESULT of this backend call
  deriving Repr, DecidableEq

/-- The per-chunk request size `n` of one loop iteration (lines 342-346
    and 388-391): the whole remainder for a DMA-safe buffer, otherwise
    clamped to `MAX_IO_SIZE`. -/
def chunk_n (safe : Nat → Bool) (off bytes : Nat) : Nat :=
  if safe off then bytes else min bytes MAX_IO_SIZE

def read_loop (resp : Nat → Nat × Nat) (safe : Nat → Bool)
    (k off bytes total : Nat) : Int × Nat × List Chunk :=
  match resp k with
  | (res, size) =>
    if res ≠ FR_OK then
      (-1, fatfs_to_errno res, [⟨chunk_n safe off bytes, size, res⟩])
    else if h2 : size = 0 then
      (Int.ofNat total, 0, [⟨chunk_n safe off bytes, size, res⟩])
    else if chunk_n safe off bytes < size then
      (-1, EIO, [⟨chunk_n safe off bytes, size, res⟩])
    else if size < chunk_n safe off bytes then
      (Int.ofNat (total + size), 0, [⟨chunk_n safe off bytes, size, res⟩])
    else if h5 : 0 < bytes - size then
      let rest := read_loop resp safe (k+1) (off+size) (bytes - size) (total + size)
      (rest.1, rest.2.1, ⟨chunk_n safe off bytes, size, res⟩ :: rest.2.2)
    else (Int.ofNat (total + size), 0, [⟨chunk_n safe off bytes, size, res⟩])
termination_by bytes
decreasing_by simp_wf; omega

/-! ### Chunked write loop (lines 386-416)

    Like the read loop but with the single retry-after-remount on
    `FR_DISK_ERR` (lines 394-400), which threads the remount flag and the
    handle table through `remount_file_system`.  The `size > n` disjunct
    of line 405 is unreachable (already returned `EIO` at line 401), so
    only `res ≠ FR_OK` remains of that test.
    Returns (return value, errno, remount_needed, table, log). -/

/-- The single retry-after-remount on `FR_DISK_ERR` inside the write loop
    (lines 394-400): the effective (result, size) of one chunk, the next
    backend-call index, and the remount flag and table it leaves behind. -/
def write_step (resp : Nat → Nat × Nat) (retryAllowed retryOk : Bool)
    (reopenRes : String → Nat → Nat) (k : Nat) (rn : Bool) (table : Table) :
    (Nat × Nat) × Nat × Bool × Table :=
  if (resp k).1 = FR_DISK_ERR ∧ retryAllowed = true then
    match remount_file_system retryOk reopenRes table with
    | (ok, rn1, t1) =>
        if ok then ((resp (k+1)), k+2, rn1, t1) else (resp k, k+1, rn1, t1)
  else (resp k, k+1, rn, table)

def write_loop (resp : Nat → Nat × Nat) (safe : Nat → Bool)
    (retryAllowed retryOk : Bool) (reopenRes : String → Nat → Nat)
    (k off bytes total : Nat) (rn : Bool) (table : Table) :
    Int × Nat × Bool × Table × List Chunk :=
  match write_step resp retryAllowed retryOk reopenRes k rn table with
  | ((res, size), k', rn', t') =>
    if h1 : size > chunk_n safe off bytes ∨ size = 0 then
      (-1, EIO, rn', t', [⟨chunk_n safe off bytes, size, res⟩])
    else if res ≠ FR_OK then
      (-1, fatfs_to_errno res, rn', t', [⟨chunk_n safe off bytes, size, res⟩])
    else if size < chunk_n safe off bytes then
      (Int.ofNat (total + size), 0, rn', t', [⟨chunk_n safe off bytes, size, res⟩])
    else if h4 : 0 < bytes - size then
      let rest := write_loop resp safe retryAllowed retryOk reopenRes
        k' (off+size) (bytes - size) (total + size) rn' t'
      (rest.1, rest.2.1, rest.2.2.1, rest.2.2.2.1,
        ⟨chunk_n safe off bytes, size, res⟩ :: rest.2.2.2.2)
    else (Int.ofNat (total + size), 0, rn', t', [⟨chunk_n safe off bytes, size, res⟩])
termination_by bytes
decreasing_by simp_wf; omega

/-! ### read (lines 318-367) -/

structure ReadOut where
  ret : Int
  errno : Nat
  remountNeeded : Bool
  table : Table
  bufZeroed : Bool      -- whether `*(char *)buf = 0` was executed
  backendCalled : Bool  -- whether any `f_read` was issued
  chunks : List Chunk

def fatfs_read (rn retryOk : Bool) (reopenRes : String → Nat → Nat) (table : Table)
    (fd : Int) (count : Nat) (resp : Nat → Nat × Nat) (safe : Nat → Bool) : ReadOut :=
  match check_remount rn retryOk reopenRes table with
  | none => ⟨-1, EIO, true, table, false, false, []⟩
  | some (rn1, t1) =>
      -- lines 329-331: `if (count > 0) { *(char *)buf = 0; }`
      let z := decide (0 < count)
      match fileno_to_stream t1 fd with
      | none => ⟨-1, EBADF, rn1, t1, z, false, []⟩
      | some _ =>
          let r := read_loop resp safe 0 0 count 0
          ⟨r.1, r.2.1, rn1, t1, z, true, r.2.2⟩

/-! ### write (lines 369-417) -/

structure WriteOut where
  ret : Int
  errno : Nat
  remountNeeded : Bool
  table : Table
  backendCalled : Bool
  chunks : List Chunk

def fatfs_write (rn retryOk retryAllowed : Bool) (reopenRes : String → Nat → Nat)
    (table : Table) (fd : Int) (count : Nat) (resp : Nat → Nat × Nat)
    (safe : Nat → Bool) : WriteOut :=
  match check_remount rn retryOk reopenRes table with
  | none => ⟨-1, EIO, true, table, false, []⟩
  | some (rn1, t1) =>
      match fileno_to_stream t1 fd with
      | none => ⟨-1, EBADF, rn1, t1, false, []⟩
      | some _ =>
          let r := write_loop resp safe retryAllowed retryOk reopenRes 0 0 count 0 rn1 t1
          ⟨r.1, r.2.1, r.2.2.1, r.2.2.2.1, true, r.2.2.2.2⟩

/-! ### open (lines 230-293)

    `fopenRes a` is the oracle for the a-th `f_open` attempt on the new
    descriptor (0 = first, 1 = after a successful in-call remount);
    `lseekRes`/`fsize` model the `O_APPEND` seek-to-end. -/

structure OpenOut where
  fd : Int
  errno : Nat
  remountNeeded : Bool
  table : Table
  backendCalled : Bool

def fatfs_open (rn retryOk retryAllowed allocOk : Bool)
    (reopenRes : String → Nat → Nat) (table : Table) (pathname : String)
    (flags : Nat) (fopenRes : Nat → Nat) (lseekRes fsize : Nat) : OpenOut :=
  match check_remount rn retryOk reopenRes table with
  | none => ⟨-1, EIO, true, table, false⟩
  | some (rn1, t1) =>
      let modes0 :=
        if flags &&& O_ACCMODE = O_RDWR then FA_READ ||| FA_WRITE
        else if flags &&& O_ACCMODE = O_RDONLY then FA_READ
        else FA_WRITE
      let fatfs_modes :=
        if flags &&& O_CREAT ≠ 0 then
          if flags &&& O_TRUNC ≠ 0 then modes0 ||| FA_CREATE_ALWAYS
          else modes0 ||| FA_OPEN_ALWAYS
        else modes0
      match new_file_descriptor allocOk t1 pathname with
      | (fd, e, t2) =>
        if fd < 0 then ⟨-1, e, rn1, t2, false⟩
        else
          let res0 := fopenRes 0
          let step :=
            if res0 = FR_DISK_ERR ∧ retryAllowed = true then
              match remount_file_system retryOk reopenRes t2 with
              | (ok, rn2, t3) => if ok then (fopenRes 1, rn2, t3) else (res0, rn2, t3)
            else (res0, rn1, t2)
          let res := step.1
          let rn' := step.2.1
          let t' := step.2.2
          if res ≠ FR_OK then
            ⟨-1, fatfs_to_errno res, rn', free_file_descriptor t' fd, true⟩
          else
            -- f_open populated the slot's file object through `fh`
            let opened : FAT_FILE := ⟨⟨0, fatfs_modes % 256⟩, pathname⟩
            let t4 := t'.set fd.toNat (some opened)
            if flags &&& O_APPEND ≠ 0 then
              if lseekRes ≠ FR_OK then
                ⟨-1, fatfs_to_errno lseekRes, rn', free_file_descriptor t4 fd, true⟩
              else
                ⟨fd, 0, rn', t4.set fd.toNat (some ⟨⟨fsize, fatfs_modes % 256⟩, pathname⟩), true⟩
            else
              ⟨fd, 0, rn', t4, true⟩

/-! ### stat (lines 486-553); only control flow, errno and state are
    modelled, not the metadata written into `struct stat`. -/

structure StatOut where
  ret : Int
  errno : Nat
  remountNeeded : Bool
  table : Table
  backendCalled : Bool

def fatfs_stat (rn retryOk retryAllowed : Bool) (reopenRes : String → Nat → Nat)
    (table : Table) (name : String) (fstatRes : Nat → Nat) : StatOut :=
  match check_remount rn retryOk reopenRes table with
  | none => ⟨-1, EIO, true, table, false⟩
  | some (rn1, t1) =>
      -- lines 501-510: "/" and "." answered without touching the backend
      if name = "/" ∨ name = "." then ⟨0, 0, rn1, t1, false⟩
      else
        let res0 := fstatRes 0
        let step :=
          if res0 = FR_DISK_ERR ∧ retryAllowed = true then
            match remount_file_system retryOk reopenRes t1 with
            | (ok, rn2, t2) => if ok then (fstatRes 1, rn2, t2) else (res0, rn2, t2)
          else (res0, rn1, t1)
        if step.1 ≠ FR_OK then ⟨-1, fatfs_to_errno step.1, step.2.1, step.2.2, true⟩
        else ⟨0, 0, step.2.1, step.2.2, true⟩

/-! ### opendir (lines 609-635) -/

structure OpendirOut where
  isNull : Bool
  errno : Nat           -- errno set by the call; 0 when left untouched
  remountNeeded : Bool
  table : Table
  backendCalled : Bool

def fatfs_opendir (rn retryOk retryAllowed allocOk : Bool)
    (reopenRes : String → Nat → Nat) (table : Table)
    (opendirRes : Nat → Nat) : OpendirOut :=
  match check_remount rn retryOk reopenRes table with
  | none => ⟨true, EIO, true, table, false⟩
  | some (rn1, t1) =>
      if !allocOk then ⟨true, 0, rn1, t1, false⟩
      else
        let res0 := opendirRes 0
        let step :=
          if res0 = FR_DISK_ERR ∧ retryAllowed = true then
            match remount_file_system retryOk reopenRes t1 with
            | (ok, rn2, t2) => if ok then (opendirRes 1, rn2, t2) else (res0, rn2, t2)
          else (res0, rn1, t1)
        if step.1 ≠ FR_OK then ⟨true, fatfs_to_errno step.1, step.2.1, step.2.2, true⟩
        else ⟨false, 0, step.2.1, step.2.2, true⟩

/-- `close` (lines 295-316): table effect and result.  `closeRes` is the
    `f_close` oracle.  Returns (ret, errno, table). -/
def fatfs_close (table : Table) (fileno : Int) (closeRes : Nat) :
    Int × Nat × Table :=
  match fileno_to_stream table fileno with
  | none => (-1, EBADF, table)
  | some _ =>
      let t1 := free_file_descriptor table fileno
      if closeRes ≠ FR_OK then (-1, fatfs_to_errno closeRes, t1)
      else (0, 0, t1)

/-! ### Format job state machine (lines 812-862) -/

inductive FormatStatus
  | NOT_STARTED
  | PENDING
  | IN_PROGRESS
  | SUCCESS
  | FAILURE
  deriving Repr, DecidableEq

/-- `format_handler` (lines 829-855).  `allocOk` is the oracle for the
    DMA-safe scratch buffer allocation; `mkfsRes` the `f_mkfs` result.
    Returns the `format_status` left behind when the worker returns. -/
def format_handler (status : FormatStatus) (allocOk : Bool) (mkfsRes : Nat) :
    FormatStatus :=
  if status ≠ FormatStatus.PENDING then
    status
  else
    -- status := IN_PROGRESS
    if !allocOk then
      FormatStatus.IN_PROGRESS
    else if mkfsRes = FR_OK then
      FormatStatus.SUCCESS
    else
      FormatStatus.FAILURE

/-! ### disk_free / disk_space (lines 710-751)

    Oracles: `getfreeRes` is the `f_getfree` result, `fre_clust`, `csize`,
    `n_fatent` the values it reports.  Returns (value, errno). -/

def disk_free (remountNeeded retryOk : Bool) (reopenRes : String → Nat → Nat)
    (table : Table) (getfreeRes fre_clust csize : Nat) : Int × Nat :=
  match check_remount remountNeeded retryOk reopenRes table with
  | none => (-1, EIO)
  | some _ =>
      if getfreeRes ≠ 0 then
        (Int.ofNat getfreeRes, 0)
      else
        (Int.ofNat (fre_clust * csize * 512), 0)

def disk_space (remountNeeded retryOk : Bool) (reopenRes : String → Nat → Nat)
    (table : Table) (getfreeRes n_fatent csize : Nat) : Int × Nat :=
  match check_remount remountNeeded retryOk reopenRes table with
  | none => (-1, EIO)
  | some _ =>
      if getfreeRes ≠ 0 then
        (-1, 0)
      else
        (Int.ofNat ((n_fatent - 2) * csize * 512), 0)

/-! ### ROMFS backend (AP_Filesystem_ROMFS.cpp)

    State: the fixed pools of open-file records and open-directory
    records, plus the (immutable) embedded image.  File records carry the
    decompressed data, its size and the offset cursor. -/

structure RFile where
  data : Option (List Nat)  -- decompressed bytes; `none` = free record
  size : Nat
  ofs : Nat
  deriving Repr, DecidableEq

structure RDir where
  path : Option String      -- `none` = free record
  ofs : Nat
  deriving Repr, DecidableEq

structure ROMFSState where
  files : List RFile
  dirs : List RDir
  deriving Repr, DecidableEq

/-- `AP_Filesystem_ROMFS::write` (lines 84-88): `errno = EROFS; return -1;`
    with no access to any state.  Returns (ret, errno, state). -/
def romfs_write (st : ROMFSState) (fd : Int) (count : Nat) :
    Int × Nat × ROMFSState :=
  (-1, EROFS, st)

/-- `AP_Filesystem_ROMFS::unlink` (lines 131-135). -/
def romfs_unlink (st : ROMFSState) (pathname : String) :
    Int × Nat × ROMFSState :=
  (-1, EROFS, st)

/-- `AP_Filesystem_ROMFS::mkdir` (lines 137-141). -/
def romfs_mkdir (st : ROMFSState) (pathname : String) :
    Int × Nat × ROMFSState :=
  (-1, EROFS, st)

/-! ### Loop invariants for the chunked transfers -/

/-- Total bytes moved according to the per-chunk backend reports. -/
def sumSizes (log : List Chunk) : Nat := (log.map (fun c => c.size)).sum

/-- The reopen mode used by recovery for a table entry: the captured
    read/write bits of the entry's file object, widened with
    `FA_OPEN_ALWAYS` when the write bit is set (lines 214-220). -/
def reopen_flags (f : FAT_FILE) : Nat :=
  let m := f.fobj.flag &&& (FA_READ ||| FA_WRITE)
  if m &&& FA_WRITE ≠ 0 then m ||| FA_OPEN_ALWAYS else m

/-! ### Open/close sequences over the handle table (for the capacity
    invariant).  An `FSOp` packages one `open` or `close` call together
    with the oracle results its backend calls will see. -/

inductive FSOp where
  | openOp (pathname : String) (flags : Nat) (retryOk retryAllowed allocOk : Bool)
      (reopenRes : String → Nat → Nat) (fopenRes : Nat → Nat) (lseekRes fsize : Nat)
  | closeOp (fd : Int) (closeRes : Nat)

/-- Effect of one `open` or `close` call on (remount_needed, table). -/
def run_op (rn : Bool) (table : Table) : FSOp → Bool × Table
  | .openOp p flags rOk rAll aOk reopen fopen ls fs =>
      ((fatfs_open rn rOk rAll aOk reopen table p flags fopen ls fs).remountNeeded,
       (fatfs_open rn rOk rAll aOk reopen table p flags fopen ls fs).table)
  | .closeOp fd cr =>
      (rn, (fatfs_close table fd cr).2.2)

def run_ops (rn : Bool) (table : Table) : List FSOp → Bool × Table
  | [] => (rn, table)
  | op :: rest => run_ops (run_op rn table op).1 (run_op rn table op).2 rest

/-! ## Theorems -/

/-- C8: the backend-result-to-errno translator is a pure total function
    over result codes: device error maps to `EIO`, missing file/path to
    `ENOENT`, invalid name to `EINVAL`, the no-work-area code to `ENOSPC`,
    sharing violation / not-ready / timeout to `EBUSY`, write-protected to
    `EROFS`, too-many-open to `EMFILE`, and every code outside the backend
    enum (any `c > FR_INVALID_PARAMETER`) to the generic `EBADMSG`. -/
theorem fatfs_to_errno_classification :
    fatfs_to_errno FR_OK = 0 ∧
    fatfs_to_errno FR_DISK_ERR = EIO ∧
    fatfs_to_errno FR_NO_FILE = ENOENT ∧
    fatfs_to_errno FR_NO_PATH = ENOENT ∧
    fatfs_to_errno FR_INVALID_NAME = EINVAL ∧
    fatfs_to_errno FR_NOT_ENABLED = ENOSPC ∧
    fatfs_to_errno FR_LOCKED = EBUSY ∧
    fatfs_to_errno FR_NOT_READY = EBUSY ∧
    fatfs_to_errno FR_TIMEOUT = EBUSY ∧
    fatfs_to_errno FR_WRITE_PROTECTED = EROFS ∧
    fatfs_to_errno FR_TOO_MANY_OPEN_FILES = EMFILE ∧
    (∀ c : Nat, FR_INVALID_PARAMETER < c → fatfs_to_errno c = EBADMSG) := by
  refine ⟨rfl, rfl, rfl, rfl, rfl, rfl, rfl, rfl, rfl, rfl, rfl, ?_⟩
  intro c hc
  simp only [FR_INVALID_PARAMETER] at hc
  unfold fatfs_to_errno
  rw [if_neg (by unfold FR_OK; omega), if_neg (by unfold FR_DISK_ERR; omega),
    if_neg (by unfold FR_INT_ERR; omega), if_neg (by unfold FR_NOT_READY; omega),
    if_neg (by unfold FR_NO_FILE; omega), if_neg (by unfold FR_NO_PATH; omega),
    if_neg (by unfold FR_INVALID_NAME; omega), if_neg (by unfold FR_DENIED; omega),
    if_neg (by unfold FR_EXIST; omega), if_neg (by unfold FR_INVALID_OBJECT; omega),
    if_neg (by unfold FR_WRITE_PROTECTED; omega), if_neg (by unfold FR_INVALID_DRIVE; omega),
    if_neg (by unfold FR_NOT_ENABLED; omega), if_neg (by unfold FR_NO_FILESYSTEM; omega),
    if_neg (by unfold FR_MKFS_ABORTED; omega), if_neg (by unfold FR_TIMEOUT; omega),
    if_neg (by unfold FR_LOCKED; omega), if_neg (by unfold FR_NOT_ENOUGH_CORE; omega),
    if_neg (by unfold FR_TOO_MANY_OPEN_FILES; omega),
    if_neg (by unfold FR_INVALID_PARAMETER; omega)]

/-- Witness for C8: the out-of-enum code 42 is translated to `EBADMSG`. -/
theorem fatfs_to_errno_classification_witness :
    FR_INVALID_PARAMETER < 42 ∧ fatfs_to_errno 42 = EBADMSG :=
  ⟨by decide, fatfs_to_errno_classification.2.2.2.2.2.2.2.2.2.2.2 42 (by decide)⟩

/-- C5 (code bug): the format worker is a no-op when the job state is not
    PENDING, but on the scratch-buffer allocation-failure path it returns
    with the state stuck at IN_PROGRESS: it never reaches the SUCCESS /
    FAILURE assignments, contradicting the documented state machine.  The
    three conjuncts evaluate the worker at a non-PENDING state, at the
    failing allocation, and at the two completed paths. -/
theorem format_handler_stuck_in_progress :
    (∀ allocOk mkfsRes, format_handler FormatStatus.SUCCESS allocOk mkfsRes =
      FormatStatus.SUCCESS) ∧
    (∀ mkfsRes, format_handler FormatStatus.PENDING false mkfsRes =
      FormatStatus.IN_PROGRESS) ∧
    (format_handler FormatStatus.PENDING true FR_OK = FormatStatus.SUCCESS ∧
     format_handler FormatStatus.PENDING true FR_DISK_ERR = FormatStatus.FAILURE) := by
  refine ⟨fun allocOk mkfsRes => ?_, fun mkfsRes => rfl, rfl, rfl⟩
  cases allocOk <;> rfl

/-- C4 (code bug): `disk_free` returns the raw backend result code to the
    caller when `f_getfree` fails: with `f_getfree` reporting
    `FR_DISK_ERR` it returns `1` — the untranslated FatFS code, a plausible
    byte count, not the failure value `-1` that `disk_space` uses on the
    same path. -/
theorem disk_free_returns_raw_fresult :
    (disk_free false true (fun _ _ => FR_OK) [] FR_DISK_ERR 7 9).1 =
      Int.ofNat FR_DISK_ERR ∧
    (disk_free false true (fun _ _ => FR_OK) [] FR_DISK_ERR 7 9).1 ≠ -1 ∧
    (disk_space false true (fun _ _ => FR_OK) [] FR_DISK_ERR 7 9).1 = -1 := by
  refine ⟨rfl, by decide, rfl⟩

/-- C9: on the read-only ROMFS backend, `write`, `unlink` and `mkdir`
    fail with `EROFS` and return `-1` for every input, and leave the
    backend state (file records, directory records) exactly as it was. -/
theorem romfs_readonly_ops (st : ROMFSState) (fd : Int) (count : Nat)
    (p q : String) :
    romfs_write st fd count = (-1, EROFS, st) ∧
    romfs_unlink st p = (-1, EROFS, st) ∧
    romfs_mkdir st q = (-1, EROFS, st) :=
  ⟨rfl, rfl, rfl⟩

/-- Helper: whenever the entry remount check can succeed (the flag is
    clear, or the card retry succeeds), `check_remount` proceeds with the
    flag cleared. -/
theorem check_remount_pass (rn retryOk : Bool) (reopen : String → Nat → Nat)
    (table : Table) (h : rn = true → retryOk = true) :
    ∃ t, check_remount rn retryOk reopen table = some (false, t) := by
  cases rn with
  | false => exact ⟨table, rfl⟩
  | true =>
      rw [h rfl]
      exact ⟨_, rfl⟩

/-- C10 counterexample: a FATFS `read` with `count = 1 > 0` that is
    rejected by the entry remount check (flag set, card retry failing)
    returns `-1` with `EIO` without writing the zero byte into the
    caller's buffer — the claimed unconditional mutation does not happen
    on this path. -/
theorem read_entry_failure_skips_buffer_zeroing :
    (fatfs_read true false (fun _ _ => FR_OK)
        (some ⟨⟨0, 1⟩, "log.bin"⟩ :: List.replicate 15 none) 0 1
        (fun _ => (FR_OK, 1)) (fun _ => true)).bufZeroed = false ∧
    (fatfs_read true false (fun _ _ => FR_OK)
        (some ⟨⟨0, 1⟩, "log.bin"⟩ :: List.replicate 15 none) 0 1
        (fun _ => (FR_OK, 1)) (fun _ => true)).ret = -1 ∧
    (fatfs_read true false (fun _ _ => FR_OK)
        (some ⟨⟨0, 1⟩, "log.bin"⟩ :: List.replicate 15 none) 0 1
        (fun _ => (FR_OK, 1)) (fun _ => true)).errno = EIO :=
  ⟨rfl, rfl, rfl⟩

/-- C10 (amended): for every FATFS `read` with `count > 0` that is not
    rejected by the entry remount check, the first byte of the caller's
    buffer is overwritten with zero before the file descriptor is
    validated and before any data is transferred — the buffer is mutated
    even when the call then fails with `EBADF` or with an I/O error from
    the backend and returns `-1`. -/
theorem read_zeroes_first_byte (rn retryOk : Bool)
    (reopen : String → Nat → Nat) (table : Table) (fd : Int) (count : Nat)
    (resp : Nat → Nat × Nat) (safe : Nat → Bool) (hcount : 0 < count)
    (hpass : rn = true → retryOk = true) :
    (fatfs_read rn retryOk reopen table fd count resp safe).bufZeroed = true := by
  obtain ⟨t, ht⟩ := check_remount_pass rn retryOk reopen table hpass
  simp only [fatfs_read, ht, decide_eq_true hcount]
  split <;> rfl

/-- Witness for C10 (amended): a read of 4 bytes on an empty table fails
    with `EBADF` yet has zeroed the buffer's first byte. -/
theorem read_zeroes_first_byte_witness :
    (fatfs_read false true (fun _ _ => FR_OK) [] 3 4
        (fun _ => (FR_OK, 0)) (fun _ => true)).bufZeroed = true :=
  read_zeroes_first_byte false true (fun _ _ => FR_OK) [] 3 4
    (fun _ => (FR_OK, 0)) (fun _ => true) (by decide) (fun h => by cases h)

/-- C2: after a successful remount (card retry succeeded), every occupied
    slot keeps its slot and its stored path; its file object is reopened
    by that path with the captured read/write mode — widened with
    `FA_OPEN_ALWAYS` when the mode includes write — and on reopen success
    the object sits at the captured byte offset; on reopen failure the
    object is left zeroed; empty slots stay empty and the table size is
    unchanged, so recovery closes and frees nothing. -/
theorem remount_restores_handles (reopen : String → Nat → Nat) (table : Table) :
    (remount_file_system true reopen table).1 = true ∧
    (remount_file_system true reopen table).2.1 = false ∧
    (remount_file_system true reopen table).2.2.length = table.length ∧
    (∀ i, table.getD i none = none →
      (remount_file_system true reopen table).2.2.getD i none = none) ∧
    (∀ i f, table.getD i none = some f →
      (remount_file_system true reopen table).2.2.getD i none =
        some (if reopen f.name (reopen_flags f) = FR_OK
              then { fobj := { fptr := f.fobj.fptr, flag := reopen_flags f },
                     name := f.name }
              else { fobj := FIL.zero, name := f.name })) := by
  have hmap : (remount_file_system true reopen table).2.2 =
      table.map (fun slot => slot.map (remount_slot reopen)) := rfl
  have hget : ∀ i, (table.map (fun slot => slot.map (remount_slot reopen))).getD i none =
      (table.getD i none).map (remount_slot reopen) := by
    intro i
    simp only [List.getD_eq_getElem?_getD, List.getElem?_map]
    cases table[i]? <;> rfl
  refine ⟨rfl, rfl, by rw [hmap]; exact table.length_map _, ?_, ?_⟩
  · intro i hi
    rw [hmap, hget i, hi]
    rfl
  · intro i f hf
    rw [hmap, hget i, hf]
    show some (remount_slot reopen f) = _
    simp only [remount_slot, reopen_flags]

/-- Witness for C2: a write-mode handle (`FA_READ|FA_WRITE`, offset 77)
    is reopened with `FA_OPEN_ALWAYS` added and its offset restored. -/
theorem remount_restores_handles_witness :
    (remount_file_system true (fun _ _ => FR_OK)
        [some { fobj := { fptr := 77, flag := 3 }, name := "log" }, none]).2.2.getD 0 none =
      some { fobj := { fptr := 77, flag := 19 }, name := "log" } := by
  have h := (remount_restores_handles (fun _ _ => FR_OK)
      [some { fobj := { fptr := 77, flag := 3 }, name := "log" }, none]).2.2.2.2 0
      { fobj := { fptr := 77, flag := 3 }, name := "log" } rfl
  simpa [reopen_flags] using h

/-- C1 counterexample: a `read` whose backend call returns the
    device-level error `FR_DISK_ERR` fails with `EIO` but leaves
    `remount_needed` clear — the volume does not enter the NEEDS_REMOUNT
    state, because `read` has no in-call retry and only a failed remount
    attempt ever sets the flag. -/
theorem read_disk_error_does_not_set_remount :
    (fatfs_read false true (fun _ _ => FR_OK)
        (some ⟨⟨0, 1⟩, "log.bin"⟩ :: List.replicate 15 none) 0 8
        (fun _ => (FR_DISK_ERR, 0)) (fun _ => true)).remountNeeded = false ∧
    (fatfs_read false true (fun _ _ => FR_OK)
        (some ⟨⟨0, 1⟩, "log.bin"⟩ :: List.replicate 15 none) 0 8
        (fun _ => (FR_DISK_ERR, 0)) (fun _ => true)).ret = -1 ∧
    (fatfs_read false true (fun _ _ => FR_OK)
        (some ⟨⟨0, 1⟩, "log.bin"⟩ :: List.replicate 15 none) 0 8
        (fun _ => (FR_DISK_ERR, 0)) (fun _ => true)).errno = EIO := by
  refine ⟨rfl, ?_, ?_⟩ <;>
    simp [fatfs_read, check_remount, fileno_to_stream, read_loop, MAX_FILES,
      FR_OK, FR_DISK_ERR, EIO, fatfs_to_errno, FR_INT_ERR]

/-- C1 (amended): the volume enters NEEDS_REMOUNT (`remount_needed`
    becomes true) not on every device-level backend error, but exactly
    when a remount attempt fails to restart the card session; remount
    attempts run at entry of every media-facing operation when the flag is
    already set, and as the single in-call retry after `FR_DISK_ERR` in
    `open`, `write`, `stat` and `opendir` when retrying is allowed — a
    device error during `read` never sets the flag since `read` has no
    in-call retry.  When the flag is set and recovery fails, each of the
    five operations fails with `EIO`, keeps the flag set, and issues no
    backend call. -/
theorem remount_state_machine :
    (∀ retryAllowed allocOk reopen table p flags fopen ls fs,
      fatfs_open true false retryAllowed allocOk reopen table p flags fopen ls fs =
        ⟨-1, EIO, true, table, false⟩) ∧
    (∀ reopen table fd count resp safe,
      fatfs_read true false reopen table fd count resp safe =
        ⟨-1, EIO, true, table, false, false, []⟩) ∧
    (∀ retryAllowed reopen table fd count resp safe,
      fatfs_write true false retryAllowed reopen table fd count resp safe =
        ⟨-1, EIO, true, table, false, []⟩) ∧
    (∀ retryAllowed reopen table name fstat,
      fatfs_stat true false retryAllowed reopen table name fstat =
        ⟨-1, EIO, true, table, false⟩) ∧
    (∀ retryAllowed allocOk reopen table odr,
      fatfs_opendir true false retryAllowed allocOk reopen table odr =
        ⟨true, EIO, true, table, false⟩) ∧
    (∀ retryOk reopen table fd count resp safe,
      (fatfs_read false retryOk reopen table fd count resp safe).remountNeeded =
        false) ∧
    (∀ reopen table p flags fopen ls fs i,
      firstFree table = some i → fopen 0 = FR_DISK_ERR →
      (fatfs_open false false true true reopen table p flags fopen ls fs).remountNeeded = true ∧
      (fatfs_open false false true true reopen table p flags fopen ls fs).fd = -1 ∧
      (fatfs_open false false true true reopen table p flags fopen ls fs).errno = EIO) ∧
    (∀ reopen table fd count resp safe f,
      fileno_to_stream table fd = some f → resp 0 = (FR_DISK_ERR, 0) →
      (fatfs_write false false true reopen table fd count resp safe).remountNeeded = true ∧
      (fatfs_write false false true reopen table fd count resp safe).ret = -1 ∧
      (fatfs_write false false true reopen table fd count resp safe).errno = EIO) ∧
    (∀ reopen table name fstat,
      name ≠ "/" → name ≠ "." → fstat 0 = FR_DISK_ERR →
      (fatfs_stat false false true reopen table name fstat).remountNeeded = true ∧
      (fatfs_stat false false true reopen table name fstat).ret = -1 ∧
      (fatfs_stat false false true reopen table name fstat).errno = EIO) ∧
    (∀ reopen table odr,
      odr 0 = FR_DISK_ERR →
      (fatfs_opendir false false true true reopen table odr).remountNeeded = true ∧
      (fatfs_opendir false false true true reopen table odr).isNull = true ∧
      (fatfs_opendir false false true true reopen table odr).errno = EIO) := by
  refine ⟨fun _ _ _ _ _ _ _ _ _ => rfl, fun _ _ _ _ _ _ => rfl,
    fun _ _ _ _ _ _ _ => rfl, fun _ _ _ _ _ => rfl, fun _ _ _ _ _ => rfl,
    ?_, ?_, ?_, ?_, ?_⟩
  · intro retryOk reopen table fd count resp safe
    simp only [fatfs_read, check_remount, if_neg (by simp : ¬false = true)]
    split <;> rfl
  · intro reopen table p flags fopen ls fs i hfree hdisk
    have hnfd : new_file_descriptor true table p =
        (Int.ofNat i, 0, table.set i (some ⟨FIL.zero, p⟩)) := by
      unfold new_file_descriptor
      rw [hfree]
      rfl
    refine ⟨?_, ?_, ?_⟩ <;>
      · simp [fatfs_open, check_remount, hnfd, hdisk, remount_file_system,
          fatfs_to_errno, FR_OK, FR_DISK_ERR, EIO]
        rw [if_neg (by omega : ¬((i : Int) < 0))]
  · intro reopen table fd count resp safe f hfd hresp
    refine ⟨?_, ?_, ?_⟩ <;>
      simp [fatfs_write, check_remount, hfd, write_loop, write_step, hresp,
        remount_file_system, FR_DISK_ERR, EIO]
  · intro reopen table name fstat hs hd hdisk
    refine ⟨?_, ?_, ?_⟩ <;>
      simp [fatfs_stat, check_remount, hs, hd, hdisk, remount_file_system,
        fatfs_to_errno, FR_OK, FR_DISK_ERR, EIO, FR_INT_ERR]
  · intro reopen table odr hdisk
    refine ⟨?_, ?_, ?_⟩ <;>
      simp [fatfs_opendir, check_remount, hdisk, remount_file_system,
        fatfs_to_errno, FR_OK, FR_DISK_ERR, EIO, FR_INT_ERR]

/-- Witness for C1 (amended): concrete instances of the hypotheses of the
    flag-raising conjuncts: an `open` on an empty table whose first
    `f_open` hits `FR_DISK_ERR` while the card cannot be restarted raises
    `remount_needed` and fails with `EIO`. -/
theorem remount_state_machine_witness :
    (fatfs_open false false true true (fun _ _ => FR_OK)
        (List.replicate 16 none) "a.txt" 0 (fun _ => FR_DISK_ERR) 0 0).remountNeeded = true ∧
    (fatfs_open false false true true (fun _ _ => FR_OK)
        (List.replicate 16 none) "a.txt" 0 (fun _ => FR_DISK_ERR) 0 0).fd = -1 ∧
    (fatfs_open false false true true (fun _ _ => FR_OK)
        (List.replicate 16 none) "a.txt" 0 (fun _ => FR_DISK_ERR) 0 0).errno = EIO :=
  remount_state_machine.2.2.2.2.2.2.1 (fun _ _ => FR_OK) (List.replicate 16 none)
    "a.txt" 0 (fun _ => FR_DISK_ERR) 0 0 0 rfl rfl

theorem sumSizes_cons (c : Chunk) (l : List Chunk) :
    sumSizes (c :: l) = c.size + sumSizes l := by
  simp [sumSizes]

/-- One-step unfolding of `read_loop`, phrased over the destructured
    backend response. -/
theorem read_loop_eq {resp : Nat → Nat × Nat} {safe : Nat → Bool}
    {k off bytes total res size : Nat} (hresp : resp k = (res, size)) :
    read_loop resp safe k off bytes total =
      if res ≠ FR_OK then
        (-1, fatfs_to_errno res, [⟨chunk_n safe off bytes, size, res⟩])
      else if size = 0 then
        (Int.ofNat total, 0, [⟨chunk_n safe off bytes, size, res⟩])
      else if chunk_n safe off bytes < size then
        (-1, EIO, [⟨chunk_n safe off bytes, size, res⟩])
      else if size < chunk_n safe off bytes then
        (Int.ofNat (total + size), 0, [⟨chunk_n safe off bytes, size, res⟩])
      else if 0 < bytes - size then
        ((read_loop resp safe (k+1) (off+size) (bytes - size) (total + size)).1,
         (read_loop resp safe (k+1) (off+size) (bytes - size) (total + size)).2.1,
         ⟨chunk_n safe off bytes, size, res⟩ ::
           (read_loop resp safe (k+1) (off+size) (bytes - size) (total + size)).2.2)
      else (Int.ofNat (total + size), 0, [⟨chunk_n safe off bytes, size, res⟩]) := by
  conv_lhs => rw [read_loop]
  rw [hresp]
  rfl

/-- One-step unfolding of `write_loop`, phrased over the destructured
    effective step. -/
theorem write_loop_eq {resp : Nat → Nat × Nat} {safe : Nat → Bool}
    {retryAllowed retryOk : Bool} {reopen : String → Nat → Nat}
    {k off bytes total : Nat} {rn : Bool} {table : Table}
    {res size k' : Nat} {rn' : Bool} {t' : Table}
    (hstep : write_step resp retryAllowed retryOk reopen k rn table =
      ((res, size), k', rn', t')) :
    write_loop resp safe retryAllowed retryOk reopen k off bytes total rn table =
      if size > chunk_n safe off bytes ∨ size = 0 then
        (-1, EIO, rn', t', [⟨chunk_n safe off bytes, size, res⟩])
      else if res ≠ FR_OK then
        (-1, fatfs_to_errno res, rn', t', [⟨chunk_n safe off bytes, size, res⟩])
      else if size < chunk_n safe off bytes then
        (Int.ofNat (total + size), 0, rn', t', [⟨chunk_n safe off bytes, size, res⟩])
      else if 0 < bytes - size then
        ((write_loop resp safe retryAllowed retryOk reopen
            k' (off+size) (bytes - size) (total + size) rn' t').1,
         (write_loop resp safe retryAllowed retryOk reopen
            k' (off+size) (bytes - size) (total + size) rn' t').2.1,
         (write_loop resp safe retryAllowed retryOk reopen
            k' (off+size) (bytes - size) (total + size) rn' t').2.2.1,
         (write_loop resp safe retryAllowed retryOk reopen
            k' (off+size) (bytes - size) (total + size) rn' t').2.2.2.1,
         ⟨chunk_n safe off bytes, size, res⟩ ::
           (write_loop resp safe retryAllowed retryOk reopen
              k' (off+size) (bytes - size) (total + size) rn' t').2.2.2.2)
      else (Int.ofNat (total + size), 0, rn', t',
        [⟨chunk_n safe off bytes, size, res⟩]) := by
  conv_lhs => rw [write_loop]
  rw [hstep]
  rfl

/-- Any chunk of a write for which the backend reported zero bytes moved,
    or more bytes than requested, makes the whole write loop return `-1`
    with `errno = EIO`, whatever the backend's nominal result code was. -/
theorem write_loop_bad_chunk (resp : Nat → Nat × Nat) (safe : Nat → Bool)
    (retryAllowed retryOk : Bool) (reopen : String → Nat → Nat) :
    ∀ k off bytes total rn table,
      ∀ c ∈ (write_loop resp safe retryAllowed retryOk reopen
                k off bytes total rn table).2.2.2.2,
        (c.size = 0 ∨ c.n < c.size) →
        (write_loop resp safe retryAllowed retryOk reopen
            k off bytes total rn table).1 = -1 ∧
        (write_loop resp safe retryAllowed retryOk reopen
            k off bytes total rn table).2.1 = EIO := by
  intro k off bytes total rn table
  induction k, off, bytes, total, rn, table
    using write_loop.induct resp safe retryAllowed retryOk reopen with
  | case1 k off bytes total rn table res size k' rn' t' hstep hbad =>
      intro c _ _
      rw [write_loop_eq hstep, if_pos hbad]
      exact ⟨rfl, rfl⟩
  | case2 k off bytes total rn table res size k' rn' t' hstep hgood hres =>
      intro c hc hbadc
      rw [write_loop_eq hstep, if_neg hgood, if_pos hres,
        List.mem_singleton] at hc
      subst hc
      simp only [not_or, not_lt] at hgood
      simp only at hbadc
      omega
  | case3 k off bytes total rn table res size k' rn' t' hstep hgood hres hlt =>
      intro c hc hbadc
      rw [write_loop_eq hstep, if_neg hgood, if_neg hres, if_pos hlt,
        List.mem_singleton] at hc
      subst hc
      simp only [not_or, not_lt] at hgood
      simp only at hbadc
      omega
  | case4 k off bytes total rn table res size k' rn' t' hstep hgood hres hlt hrec ih =>
      intro c hc hbadc
      rw [write_loop_eq hstep, if_neg hgood, if_neg hres, if_neg hlt, if_pos hrec]
      rw [write_loop_eq hstep, if_neg hgood, if_neg hres, if_neg hlt, if_pos hrec,
        List.mem_cons] at hc
      rcases hc with hc | hc
      · subst hc
        simp only [not_or, not_lt] at hgood
        simp only at hbadc
        omega
      · exact ih c hc hbadc
  | case5 k off bytes total rn table res size k' rn' t' hstep hgood hres hlt hrec =>
      intro c hc hbadc
      rw [write_loop_eq hstep, if_neg hgood, if_neg hres, if_neg hlt, if_neg hrec,
        List.mem_singleton] at hc
      subst hc
      simp only [not_or, not_lt] at hgood
      simp only at hbadc
      omega

/-- C6: for every chunk of a FATFS `write`, if the backend reports zero
    bytes moved, or more bytes than were requested for that chunk, the
    write returns `-1` with `errno = EIO`, regardless of the backend's
    nominal result code. -/
theorem write_bad_chunk_is_EIO (rn retryOk retryAllowed : Bool)
    (reopen : String → Nat → Nat) (table : Table) (fd : Int) (count : Nat)
    (resp : Nat → Nat × Nat) (safe : Nat → Bool) :
    ∀ c ∈ (fatfs_write rn retryOk retryAllowed reopen table fd count resp safe).chunks,
      (c.size = 0 ∨ c.n < c.size) →
      (fatfs_write rn retryOk retryAllowed reopen table fd count resp safe).ret = -1 ∧
      (fatfs_write rn retryOk retryAllowed reopen table fd count resp safe).errno = EIO := by
  intro c hc hbad
  cases hcr : check_remount rn retryOk reopen table with
  | none =>
      simp only [fatfs_write, hcr] at hc
      cases hc
  | some p =>
      obtain ⟨rn1, t1⟩ := p
      cases hfd : fileno_to_stream t1 fd with
      | none =>
          simp only [fatfs_write, hcr, hfd] at hc
          cases hc
      | some f =>
          simp only [fatfs_write, hcr, hfd] at hc ⊢
          exact write_loop_bad_chunk resp safe retryAllowed retryOk reopen
            0 0 count 0 rn1 t1 c hc hbad

/-- Witness for C6: a 5-byte write whose backend reports `FR_OK` but
    moves zero bytes fails with `-1` / `EIO`. -/
theorem write_bad_chunk_is_EIO_witness :
    (⟨5, 0, FR_OK⟩ : Chunk) ∈ (fatfs_write false true false (fun _ _ => FR_OK)
        (some ⟨⟨0, 2⟩, "w.txt"⟩ :: List.replicate 15 none) 0 5
        (fun _ => (FR_OK, 0)) (fun _ => true)).chunks ∧
    (fatfs_write false true false (fun _ _ => FR_OK)
        (some ⟨⟨0, 2⟩, "w.txt"⟩ :: List.replicate 15 none) 0 5
        (fun _ => (FR_OK, 0)) (fun _ => true)).ret = -1 ∧
    (fatfs_write false true false (fun _ _ => FR_OK)
        (some ⟨⟨0, 2⟩, "w.txt"⟩ :: List.replicate 15 none) 0 5
        (fun _ => (FR_OK, 0)) (fun _ => true)).errno = EIO := by
  have hmem : (⟨5, 0, FR_OK⟩ : Chunk) ∈ (fatfs_write false true false (fun _ _ => FR_OK)
      (some ⟨⟨0, 2⟩, "w.txt"⟩ :: List.replicate 15 none) 0 5
      (fun _ => (FR_OK, 0)) (fun _ => true)).chunks := by
    simp [fatfs_write, check_remount, fileno_to_stream, write_loop, write_step,
      chunk_n, MAX_FILES, FR_OK, FR_DISK_ERR, EIO, MAX_IO_SIZE]
  have h := write_bad_chunk_is_EIO false true false (fun _ _ => FR_OK)
    (some ⟨⟨0, 2⟩, "w.txt"⟩ :: List.replicate 15 none) 0 5
    (fun _ => (FR_OK, 0)) (fun _ => true) ⟨5, 0, FR_OK⟩ hmem (Or.inl rfl)
  exact ⟨hmem, h.1, h.2⟩

/-- On a transfer-unsafe buffer the per-chunk request is the clamped
    remainder. -/
theorem chunk_n_clamped {safe : Nat → Bool} (hnodma : ∀ o, safe o = false)
    (off bytes : Nat) : chunk_n safe off bytes = min bytes MAX_IO_SIZE := by
  simp [chunk_n, hnodma off]

/-- Invariants of the chunked read loop on a transfer-unsafe buffer:
    every backend call is clamped to `MAX_IO_SIZE` and to the remaining
    request; a non-error return is the accumulator plus the sum of the
    chunk sizes, which never exceeds the remaining request; every chunk
    except the last was a full successful chunk (the loop stops
    immediately on a short or failed chunk); a non-error return short of
    the request ends in a short chunk; an error return ends in a chunk
    that failed or over-reported. -/
theorem read_loop_spec (resp : Nat → Nat × Nat) (safe : Nat → Bool)
    (hnodma : ∀ o, safe o = false) :
    ∀ k off bytes total,
      (read_loop resp safe k off bytes total).2.2 ≠ [] ∧
      (∀ c ∈ (read_loop resp safe k off bytes total).2.2,
        c.n ≤ MAX_IO_SIZE ∧ c.n ≤ bytes) ∧
      ((read_loop resp safe k off bytes total).1 ≠ -1 →
        (read_loop resp safe k off bytes total).1 =
          Int.ofNat (total + sumSizes (read_loop resp safe k off bytes total).2.2) ∧
        sumSizes (read_loop resp safe k off bytes total).2.2 ≤ bytes) ∧
      (∀ c ∈ (read_loop resp safe k off bytes total).2.2.dropLast,
        c.res = FR_OK ∧ c.size = c.n ∧ 0 < c.size) ∧
      ((read_loop resp safe k off bytes total).1 ≠ -1 →
        sumSizes (read_loop resp safe k off bytes total).2.2 < bytes →
        ∃ c, (read_loop resp safe k off bytes total).2.2.getLast? = some c ∧
          c.size < c.n) ∧
      ((read_loop resp safe k off bytes total).1 = -1 →
        ∃ c, (read_loop resp safe k off bytes total).2.2.getLast? = some c ∧
          (c.res ≠ FR_OK ∨ c.n < c.size)) := by
  intro k off bytes total
  induction k, off, bytes, total using read_loop.induct resp safe with
  | case1 k off bytes total res size hresp hres =>
      rw [read_loop_eq hresp, if_pos hres]
      have hnb : chunk_n safe off bytes ≤ bytes := by
        rw [chunk_n_clamped hnodma]; exact Nat.min_le_left _ _
      have hnm : chunk_n safe off bytes ≤ MAX_IO_SIZE := by
        rw [chunk_n_clamped hnodma]; exact Nat.min_le_right _ _
      refine ⟨by simp, ?_, ?_, by simp, ?_, ?_⟩
      · intro c hc
        rw [List.mem_singleton] at hc
        subst hc
        exact ⟨hnm, hnb⟩
      · intro h
        exact absurd rfl h
      · intro h
        exact absurd rfl h
      · intro _
        exact ⟨_, List.getLast?_singleton _, Or.inl hres⟩
  | case2 k off bytes total res hres hresp =>
      rw [read_loop_eq hresp, if_neg hres, if_pos rfl]
      have hnb : chunk_n safe off bytes ≤ bytes := by
        rw [chunk_n_clamped hnodma]; exact Nat.min_le_left _ _
      have hnm : chunk_n safe off bytes ≤ MAX_IO_SIZE := by
        rw [chunk_n_clamped hnodma]; exact Nat.min_le_right _ _
      refine ⟨by simp, ?_, ?_, by simp, ?_, ?_⟩
      · intro c hc
        rw [List.mem_singleton] at hc
        subst hc
        exact ⟨hnm, hnb⟩
      · intro _
        exact ⟨by simp [sumSizes], by simp [sumSizes]⟩
      · intro _ hlt
        refine ⟨_, List.getLast?_singleton _, ?_⟩
        simp only [sumSizes, List.map_cons, List.map_nil, List.sum_cons,
          List.sum_nil] at hlt
        show 0 < chunk_n safe off bytes
        rw [chunk_n_clamped hnodma]
        simp only [MAX_IO_SIZE]
        omega
      · intro h
        exact absurd h (by simp)
  | case3 k off bytes total res size hresp hres hsz hlt =>
      rw [read_loop_eq hresp, if_neg hres, if_neg hsz, if_pos hlt]
      have hnb : chunk_n safe off bytes ≤ bytes := by
        rw [chunk_n_clamped hnodma]; exact Nat.min_le_left _ _
      have hnm : chunk_n safe off bytes ≤ MAX_IO_SIZE := by
        rw [chunk_n_clamped hnodma]; exact Nat.min_le_right _ _
      refine ⟨by simp, ?_, ?_, by simp, ?_, ?_⟩
      · intro c hc
        rw [List.mem_singleton] at hc
        subst hc
        exact ⟨hnm, hnb⟩
      · intro h
        exact absurd rfl h
      · intro h
        exact absurd rfl h
      · intro _
        exact ⟨_, List.getLast?_singleton _, Or.inr hlt⟩
  | case4 k off bytes total res size hresp hres hsz hnlt hlt =>
      rw [read_loop_eq hresp, if_neg hres, if_neg hsz, if_neg hnlt, if_pos hlt]
      have hnb : chunk_n safe off bytes ≤ bytes := by
        rw [chunk_n_clamped hnodma]; exact Nat.min_le_left _ _
      have hnm : chunk_n safe off bytes ≤ MAX_IO_SIZE := by
        rw [chunk_n_clamped hnodma]; exact Nat.min_le_right _ _
      refine ⟨by simp, ?_, ?_, by simp, ?_, ?_⟩
      · intro c hc
        rw [List.mem_singleton] at hc
        subst hc
        exact ⟨hnm, hnb⟩
      · intro _
        refine ⟨by simp [sumSizes], ?_⟩
        simp only [sumSizes, List.map_cons, List.map_nil, List.sum_cons,
          List.sum_nil]
        omega
      · intro _ _
        exact ⟨_, List.getLast?_singleton _, hlt⟩
      · intro h
        exact absurd h (by simp; omega)
  | case5 k off bytes total res size hresp hres hsz hnlt hnsh hrec ih =>
      rw [read_loop_eq hresp, if_neg hres, if_neg hsz, if_neg hnlt, if_neg hnsh,
        if_pos hrec]
      have hnb : chunk_n safe off bytes ≤ bytes := by
        rw [chunk_n_clamped hnodma]; exact Nat.min_le_left _ _
      have hnm : chunk_n safe off bytes ≤ MAX_IO_SIZE := by
        rw [chunk_n_clamped hnodma]; exact Nat.min_le_right _ _
      have hsize_eq : size = chunk_n safe off bytes := by omega
      obtain ⟨ih0, ih1, ih2, ih3, ih4, ih5⟩ := ih
      have hlast : ∀ c,
          (read_loop resp safe (k+1) (off+size) (bytes - size)
            (total + size)).2.2.getLast? = some c →
          ((⟨chunk_n safe off bytes, size, res⟩ : Chunk) ::
            (read_loop resp safe (k+1) (off+size) (bytes - size)
              (total + size)).2.2).getLast? = some c := by
        intro c hc
        cases hrl : (read_loop resp safe (k+1) (off+size) (bytes - size)
            (total + size)).2.2 with
        | nil => exact absurd hrl ih0
        | cons b l =>
            rw [hrl] at hc
            rw [List.getLast?_cons_cons]
            exact hc
      refine ⟨by simp, ?_, ?_, ?_, ?_, ?_⟩
      · intro c hc
        rw [List.mem_cons] at hc
        rcases hc with hc | hc
        · subst hc
          exact ⟨hnm, hnb⟩
        · have hcc := ih1 c hc
          exact ⟨hcc.1, le_trans hcc.2 (Nat.sub_le _ _)⟩
      · intro hne
        obtain ⟨he, hle⟩ := ih2 hne
        have hsum : sumSizes ((⟨chunk_n safe off bytes, size, res⟩ : Chunk) ::
            (read_loop resp safe (k+1) (off+size) (bytes - size)
              (total + size)).2.2) =
            size + sumSizes (read_loop resp safe (k+1) (off+size) (bytes - size)
              (total + size)).2.2 := by
          rw [sumSizes_cons]
        have hsb : size ≤ bytes := hsize_eq ▸ hnb
        refine ⟨?_, ?_⟩
        · rw [he, hsum]
          congr 1
          exact Nat.add_assoc total size _
        · rw [hsum]
          calc size + sumSizes (read_loop resp safe (k+1) (off+size)
                (bytes - size) (total + size)).2.2
              ≤ size + (bytes - size) := Nat.add_le_add_left hle _
            _ = bytes := Nat.add_sub_cancel' hsb
      · intro c hc
        rw [List.dropLast_cons_of_ne_nil ih0, List.mem_cons] at hc
        rcases hc with hc | hc
        · subst hc
          exact ⟨not_not.mp hres, hsize_eq, Nat.pos_of_ne_zero hsz⟩
        · exact ih3 c hc
      · intro hne hlt
        have hsum : sumSizes ((⟨chunk_n safe off bytes, size, res⟩ : Chunk) ::
            (read_loop resp safe (k+1) (off+size) (bytes - size)
              (total + size)).2.2) =
            size + sumSizes (read_loop resp safe (k+1) (off+size) (bytes - size)
              (total + size)).2.2 := by
          rw [sumSizes_cons]
        rw [hsum] at hlt
        have hsb : size ≤ bytes := hsize_eq ▸ hnb
        have harg : sumSizes (read_loop resp safe (k+1) (off+size) (bytes - size)
            (total + size)).2.2 < bytes - size := by
          clear hlast ih0 ih1 ih2 ih3 ih4 ih5 hne hresp hres hsum
          omega
        obtain ⟨c, hc, hshort⟩ := ih4 hne harg
        exact ⟨c, hlast c hc, hshort⟩
      · intro hne
        obtain ⟨c, hc, herr⟩ := ih5 hne
        exact ⟨c, hlast c hc, herr⟩
  | case6 k off bytes total res size hresp hres hsz hnlt hnsh hrec =>
      rw [read_loop_eq hresp, if_neg hres, if_neg hsz, if_neg hnlt, if_neg hnsh,
        if_neg hrec]
      have hnb : chunk_n safe off bytes ≤ bytes := by
        rw [chunk_n_clamped hnodma]; exact Nat.min_le_left _ _
      have hnm : chunk_n safe off bytes ≤ MAX_IO_SIZE := by
        rw [chunk_n_clamped hnodma]; exact Nat.min_le_right _ _
      refine ⟨by simp, ?_, ?_, by simp, ?_, ?_⟩
      · intro c hc
        rw [List.mem_singleton] at hc
        subst hc
        exact ⟨hnm, hnb⟩
      · intro _
        refine ⟨by simp [sumSizes], ?_⟩
        simp only [sumSizes, List.map_cons, List.map_nil, List.sum_cons,
          List.sum_nil]
        omega
      · intro _ hlt
        exfalso
        simp only [sumSizes, List.map_cons, List.map_nil, List.sum_cons,
          List.sum_nil] at hlt
        omega
      · intro h
        exact absurd h (by simp; omega)

/-- Invariants of the chunked write loop on a transfer-unsafe buffer,
    mirroring `read_loop_spec`; the error case also covers the
    zero-or-over-sized chunk that the write loop turns into `EIO`. -/
theorem write_loop_spec (resp : Nat → Nat × Nat) (safe : Nat → Bool)
    (retryAllowed retryOk : Bool) (reopen : String → Nat → Nat)
    (hnodma : ∀ o, safe o = false) :
    ∀ k off bytes total rn table,
      (write_loop resp safe retryAllowed retryOk reopen
        k off bytes total rn table).2.2.2.2 ≠ [] ∧
      (∀ c ∈ (write_loop resp safe retryAllowed retryOk reopen
          k off bytes total rn table).2.2.2.2,
        c.n ≤ MAX_IO_SIZE ∧ c.n ≤ bytes) ∧
      ((write_loop resp safe retryAllowed retryOk reopen
          k off bytes total rn table).1 ≠ -1 →
        (write_loop resp safe retryAllowed retryOk reopen
          k off bytes total rn table).1 =
          Int.ofNat (total + sumSizes (write_loop resp safe retryAllowed retryOk
            reopen k off bytes total rn table).2.2.2.2) ∧
        sumSizes (write_loop resp safe retryAllowed retryOk reopen
          k off bytes total rn table).2.2.2.2 ≤ bytes) ∧
      (∀ c ∈ (write_loop resp safe retryAllowed retryOk reopen
          k off bytes total rn table).2.2.2.2.dropLast,
        c.res = FR_OK ∧ c.size = c.n ∧ 0 < c.size) ∧
      ((write_loop resp safe retryAllowed retryOk reopen
          k off bytes total rn table).1 ≠ -1 →
        sumSizes (write_loop resp safe retryAllowed retryOk reopen
          k off bytes total rn table).2.2.2.2 < bytes →
        ∃ c, (write_loop resp safe retryAllowed retryOk reopen
            k off bytes total rn table).2.2.2.2.getLast? = some c ∧
          c.size < c.n) ∧
      ((write_loop resp safe retryAllowed retryOk reopen
          k off bytes total rn table).1 = -1 →
        ∃ c, (write_loop resp safe retryAllowed retryOk reopen
            k off bytes total rn table).2.2.2.2.getLast? = some c ∧
          (c.size = 0 ∨ c.n < c.size ∨ c.res ≠ FR_OK)) := by
  intro k off bytes total rn table
  induction k, off, bytes, total, rn, table
    using write_loop.induct resp safe retryAllowed retryOk reopen with
  | case1 k off bytes total rn table res size k' rn' t' hstep hbad =>
      rw [write_loop_eq hstep, if_pos hbad]
      have hnb : chunk_n safe off bytes ≤ bytes := by
        rw [chunk_n_clamped hnodma]; exact Nat.min_le_left _ _
      have hnm : chunk_n safe off bytes ≤ MAX_IO_SIZE := by
        rw [chunk_n_clamped hnodma]; exact Nat.min_le_right _ _
      refine ⟨by simp, ?_, ?_, by simp, ?_, ?_⟩
      · intro c hc
        rw [List.mem_singleton] at hc
        subst hc
        exact ⟨hnm, hnb⟩
      · intro h
        exact absurd rfl h
      · intro h
        exact absurd rfl h
      · intro _
        refine ⟨_, List.getLast?_singleton _, ?_⟩
        rcases hbad with h | h
        · exact Or.inr (Or.inl h)
        · exact Or.inl h
  | case2 k off bytes total rn table res size k' rn' t' hstep hgood hres =>
      rw [write_loop_eq hstep, if_neg hgood, if_pos hres]
      have hnb : chunk_n safe off bytes ≤ bytes := by
        rw [chunk_n_clamped hnodma]; exact Nat.min_le_left _ _
      have hnm : chunk_n safe off bytes ≤ MAX_IO_SIZE := by
        rw [chunk_n_clamped hnodma]; exact Nat.min_le_right _ _
      refine ⟨by simp, ?_, ?_, by simp, ?_, ?_⟩
      · intro c hc
        rw [List.mem_singleton] at hc
        subst hc
        exact ⟨hnm, hnb⟩
      · intro h
        exact absurd rfl h
      · intro h
        exact absurd rfl h
      · intro _
        exact ⟨_, List.getLast?_singleton _, Or.inr (Or.inr hres)⟩
  | case3 k off bytes total rn table res size k' rn' t' hstep hgood hres hlt =>
      rw [write_loop_eq hstep, if_neg hgood, if_neg hres, if_pos hlt]
      have hnb : chunk_n safe off bytes ≤ bytes := by
        rw [chunk_n_clamped hnodma]; exact Nat.min_le_left _ _
      have hnm : chunk_n safe off bytes ≤ MAX_IO_SIZE := by
        rw [chunk_n_clamped hnodma]; exact Nat.min_le_right _ _
      refine ⟨by simp, ?_, ?_, by simp, ?_, ?_⟩
      · intro c hc
        rw [List.mem_singleton] at hc
        subst hc
        exact ⟨hnm, hnb⟩
      · intro _
        refine ⟨by simp [sumSizes], ?_⟩
        simp only [sumSizes, List.map_cons, List.map_nil, List.sum_cons,
          List.sum_nil]
        omega
      · intro _ _
        exact ⟨_, List.getLast?_singleton _, hlt⟩
      · intro h
        exact absurd h (by simp; omega)
  | case4 k off bytes total rn table res size k' rn' t' hstep hgood hres hnsh hrec ih =>
      rw [write_loop_eq hstep, if_neg hgood, if_neg hres, if_neg hnsh, if_pos hrec]
      have hnb : chunk_n safe off bytes ≤ bytes := by
        rw [chunk_n_clamped hnodma]; exact Nat.min_le_left _ _
      have hnm : chunk_n safe off bytes ≤ MAX_IO_SIZE := by
        rw [chunk_n_clamped hnodma]; exact Nat.min_le_right _ _
      simp only [not_or, not_lt] at hgood
      have hsize_eq : size = chunk_n safe off bytes := by omega
      obtain ⟨ih0, ih1, ih2, ih3, ih4, ih5⟩ := ih
      have hlast : ∀ c,
          (write_loop resp safe retryAllowed retryOk reopen
            k' (off+size) (bytes - size) (total + size) rn' t').2.2.2.2.getLast? =
            some c →
          ((⟨chunk_n safe off bytes, size, res⟩ : Chunk) ::
            (write_loop resp safe retryAllowed retryOk reopen
              k' (off+size) (bytes - size) (total + size) rn' t').2.2.2.2).getLast? =
            some c := by
        intro c hc
        cases hrl : (write_loop resp safe retryAllowed retryOk reopen
            k' (off+size) (bytes - size) (total + size) rn' t').2.2.2.2 with
        | nil => exact absurd hrl ih0
        | cons b l =>
            rw [hrl] at hc
            rw [List.getLast?_cons_cons]
            exact hc
      refine ⟨by simp, ?_, ?_, ?_, ?_, ?_⟩
      · intro c hc
        rw [List.mem_cons] at hc
        rcases hc with hc | hc
        · subst hc
          exact ⟨hnm, hnb⟩
        · have hcc := ih1 c hc
          exact ⟨hcc.1, le_trans hcc.2 (Nat.sub_le _ _)⟩
      · intro hne
        obtain ⟨he, hle⟩ := ih2 hne
        have hsum : sumSizes ((⟨chunk_n safe off bytes, size, res⟩ : Chunk) ::
            (write_loop resp safe retryAllowed retryOk reopen
              k' (off+size) (bytes - size) (total + size) rn' t').2.2.2.2) =
            size + sumSizes (write_loop resp safe retryAllowed retryOk reopen
              k' (off+size) (bytes - size) (total + size) rn' t').2.2.2.2 := by
          rw [sumSizes_cons]
        have hsb : size ≤ bytes := hsize_eq ▸ hnb
        refine ⟨?_, ?_⟩
        · rw [he, hsum]
          congr 1
          exact Nat.add_assoc total size _
        · rw [hsum]
          calc size + sumSizes (write_loop resp safe retryAllowed retryOk reopen
                k' (off+size) (bytes - size) (total + size) rn' t').2.2.2.2
              ≤ size + (bytes - size) := Nat.add_le_add_left hle _
            _ = bytes := Nat.add_sub_cancel' hsb
      · intro c hc
        rw [List.dropLast_cons_of_ne_nil ih0, List.mem_cons] at hc
        rcases hc with hc | hc
        · subst hc
          exact ⟨not_not.mp hres, hsize_eq, Nat.pos_of_ne_zero hgood.2⟩
        · exact ih3 c hc
      · intro hne hlt
        have hsum : sumSizes ((⟨chunk_n safe off bytes, size, res⟩ : Chunk) ::
            (write_loop resp safe retryAllowed retryOk reopen
              k' (off+size) (bytes - size) (total + size) rn' t').2.2.2.2) =
            size + sumSizes (write_loop resp safe retryAllowed retryOk reopen
              k' (off+size) (bytes - size) (total + size) rn' t').2.2.2.2 := by
          rw [sumSizes_cons]
        rw [hsum] at hlt
        have hsb : size ≤ bytes := hsize_eq ▸ hnb
        have harg : sumSizes (write_loop resp safe retryAllowed retryOk reopen
            k' (off+size) (bytes - size) (total + size) rn' t').2.2.2.2 <
            bytes - size := by
          clear hlast ih0 ih1 ih2 ih3 ih4 ih5 hne hres hsum
          omega
        obtain ⟨c, hc, hshort⟩ := ih4 hne harg
        exact ⟨c, hlast c hc, hshort⟩
      · intro hne
        obtain ⟨c, hc, herr⟩ := ih5 hne
        exact ⟨c, hlast c hc, herr⟩
  | case5 k off bytes total rn table res size k' rn' t' hstep hgood hres hnsh hrec =>
      rw [write_loop_eq hstep, if_neg hgood, if_neg hres, if_neg hnsh, if_neg hrec]
      have hnb : chunk_n safe off bytes ≤ bytes := by
        rw [chunk_n_clamped hnodma]; exact Nat.min_le_left _ _
      have hnm : chunk_n safe off bytes ≤ MAX_IO_SIZE := by
        rw [chunk_n_clamped hnodma]; exact Nat.min_le_right _ _
      simp only [not_or, not_lt] at hgood
      refine ⟨by simp, ?_, ?_, by simp, ?_, ?_⟩
      · intro c hc
        rw [List.mem_singleton] at hc
        subst hc
        exact ⟨hnm, hnb⟩
      · intro _
        refine ⟨by simp [sumSizes], ?_⟩
        simp only [sumSizes, List.map_cons, List.map_nil, List.sum_cons,
          List.sum_nil]
        omega
      · intro _ hlt
        exfalso
        simp only [sumSizes, List.map_cons, List.map_nil, List.sum_cons,
          List.sum_nil] at hlt
        omega
      · intro h
        exact absurd h (by simp; omega)

/-- C3: for every FATFS read or write on a buffer that fails the
    transfer-safety predicate, each backend call is clamped to at most
    `MAX_IO_SIZE` (4096) bytes; the loop accumulates bytes and advances
    the cursor, continuing only on full successful chunks; it stops
    exactly when the request is satisfied, immediately after a chunk that
    moved fewer bytes than requested, or at the first backend error; a
    non-error return equals the sum of the per-chunk byte counts and never
    exceeds the requested count. -/
theorem chunked_io_strategy :
    (∀ rn retryOk reopen table fd count resp safe, (∀ o, safe o = false) →
      (∀ c ∈ (fatfs_read rn retryOk reopen table fd count resp safe).chunks,
        c.n ≤ MAX_IO_SIZE ∧ c.n ≤ count) ∧
      ((fatfs_read rn retryOk reopen table fd count resp safe).ret ≠ -1 →
        (fatfs_read rn retryOk reopen table fd count resp safe).ret =
          Int.ofNat (sumSizes
            (fatfs_read rn retryOk reopen table fd count resp safe).chunks) ∧
        sumSizes (fatfs_read rn retryOk reopen table fd count resp safe).chunks
          ≤ count) ∧
      (∀ c ∈ (fatfs_read rn retryOk reopen table fd count resp safe).chunks.dropLast,
        c.res = FR_OK ∧ c.size = c.n ∧ 0 < c.size) ∧
      ((fatfs_read rn retryOk reopen table fd count resp safe).ret ≠ -1 →
        sumSizes (fatfs_read rn retryOk reopen table fd count resp safe).chunks
          < count →
        (fatfs_read rn retryOk reopen table fd count resp safe).backendCalled = true →
        ∃ c, (fatfs_read rn retryOk reopen table fd count resp
            safe).chunks.getLast? = some c ∧ c.size < c.n) ∧
      ((fatfs_read rn retryOk reopen table fd count resp safe).ret = -1 →
        (fatfs_read rn retryOk reopen table fd count resp safe).backendCalled = true →
        ∃ c, (fatfs_read rn retryOk reopen table fd count resp
            safe).chunks.getLast? = some c ∧ (c.res ≠ FR_OK ∨ c.n < c.size))) ∧
    (∀ rn retryOk retryAllowed reopen table fd count resp safe,
      (∀ o, safe o = false) →
      (∀ c ∈ (fatfs_write rn retryOk retryAllowed reopen table fd count resp
          safe).chunks, c.n ≤ MAX_IO_SIZE ∧ c.n ≤ count) ∧
      ((fatfs_write rn retryOk retryAllowed reopen table fd count resp safe).ret
          ≠ -1 →
        (fatfs_write rn retryOk retryAllowed reopen table fd count resp safe).ret =
          Int.ofNat (sumSizes (fatfs_write rn retryOk retryAllowed reopen table
            fd count resp safe).chunks) ∧
        sumSizes (fatfs_write rn retryOk retryAllowed reopen table fd count resp
          safe).chunks ≤ count) ∧
      (∀ c ∈ (fatfs_write rn retryOk retryAllowed reopen table fd count resp
          safe).chunks.dropLast, c.res = FR_OK ∧ c.size = c.n ∧ 0 < c.size) ∧
      ((fatfs_write rn retryOk retryAllowed reopen table fd count resp safe).ret
          ≠ -1 →
        sumSizes (fatfs_write rn retryOk retryAllowed reopen table fd count resp
          safe).chunks < count →
        (fatfs_write rn retryOk retryAllowed reopen table fd count resp
          safe).backendCalled = true →
        ∃ c, (fatfs_write rn retryOk retryAllowed reopen table fd count resp
            safe).chunks.getLast? = some c ∧ c.size < c.n) ∧
      ((fatfs_write rn retryOk retryAllowed reopen table fd count resp safe).ret
          = -1 →
        (fatfs_write rn retryOk retryAllowed reopen table fd count resp
          safe).backendCalled = true →
        ∃ c, (fatfs_write rn retryOk retryAllowed reopen table fd count resp
            safe).chunks.getLast? = some c ∧
          (c.size = 0 ∨ c.n < c.size ∨ c.res ≠ FR_OK))) := by
  constructor
  · intro rn retryOk reopen table fd count resp safe hnodma
    cases hcr : check_remount rn retryOk reopen table with
    | none =>
        simp only [fatfs_read, hcr]
        exact ⟨fun c hc => absurd hc (List.not_mem_nil c),
          fun h => absurd rfl h,
          fun c hc => absurd hc (by simp),
          fun h => absurd rfl h,
          fun _ hb => absurd hb (by simp)⟩
    | some p =>
        obtain ⟨rn1, t1⟩ := p
        cases hfd : fileno_to_stream t1 fd with
        | none =>
            simp only [fatfs_read, hcr, hfd]
            exact ⟨fun c hc => absurd hc (List.not_mem_nil c),
              fun h => absurd rfl h,
              fun c hc => absurd hc (by simp),
              fun h => absurd rfl h,
              fun _ hb => absurd hb (by simp)⟩
        | some f =>
            simp only [fatfs_read, hcr, hfd]
            obtain ⟨p0, p1, p2, p3, p4, p5⟩ :=
              read_loop_spec resp safe hnodma 0 0 count 0
            refine ⟨p1, ?_, p3, fun h hlt _ => p4 h hlt, fun h _ => p5 h⟩
            intro h
            obtain ⟨he, hle⟩ := p2 h
            refine ⟨?_, hle⟩
            rw [he]
            congr 1
            exact Nat.zero_add _
  · intro rn retryOk retryAllowed reopen table fd count resp safe hnodma
    cases hcr : check_remount rn retryOk reopen table with
    | none =>
        simp only [fatfs_write, hcr]
        exact ⟨fun c hc => absurd hc (List.not_mem_nil c),
          fun h => absurd rfl h,
          fun c hc => absurd hc (by simp),
          fun h => absurd rfl h,
          fun _ hb => absurd hb (by simp)⟩
    | some p =>
        obtain ⟨rn1, t1⟩ := p
        cases hfd : fileno_to_stream t1 fd with
        | none =>
            simp only [fatfs_write, hcr, hfd]
            exact ⟨fun c hc => absurd hc (List.not_mem_nil c),
              fun h => absurd rfl h,
              fun c hc => absurd hc (by simp),
              fun h => absurd rfl h,
              fun _ hb => absurd hb (by simp)⟩
        | some f =>
            simp only [fatfs_write, hcr, hfd]
            obtain ⟨p0, p1, p2, p3, p4, p5⟩ :=
              write_loop_spec resp safe retryAllowed retryOk reopen hnodma
                0 0 count 0 rn1 t1
            refine ⟨p1, ?_, p3, fun h hlt _ => p4 h hlt, fun h _ => p5 h⟩
            intro h
            obtain ⟨he, hle⟩ := p2 h
            refine ⟨?_, hle⟩
            rw [he]
            congr 1
            exact Nat.zero_add _

/-- Witness for C3: an unsafe-buffer read of 5000 bytes answered with a
    full 4096-byte chunk and then a 904-byte chunk returns 5000, the sum
    of the chunk sizes. -/
theorem chunked_io_strategy_witness :
    (fatfs_read false true (fun _ _ => FR_OK)
        (some ⟨⟨0, 1⟩, "log.bin"⟩ :: List.replicate 15 none) 0 5000
        (fun k => (FR_OK, if k = 0 then 4096 else 904)) (fun _ => false)).ret =
      Int.ofNat (sumSizes (fatfs_read false true (fun _ _ => FR_OK)
        (some ⟨⟨0, 1⟩, "log.bin"⟩ :: List.replicate 15 none) 0 5000
        (fun k => (FR_OK, if k = 0 then 4096 else 904)) (fun _ => false)).chunks) ∧
    sumSizes (fatfs_read false true (fun _ _ => FR_OK)
        (some ⟨⟨0, 1⟩, "log.bin"⟩ :: List.replicate 15 none) 0 5000
        (fun k => (FR_OK, if k = 0 then 4096 else 904)) (fun _ => false)).chunks ≤ 5000 :=
  (chunked_io_strategy.1 false true (fun _ _ => FR_OK)
      (some ⟨⟨0, 1⟩, "log.bin"⟩ :: List.replicate 15 none) 0 5000
      (fun k => (FR_OK, if k = 0 then 4096 else 904)) (fun _ => false) (fun _ => rfl)).2.1
    (by
      simp [fatfs_read, check_remount, fileno_to_stream, read_loop, read_loop_eq,
        chunk_n, MAX_FILES, MAX_IO_SIZE, FR_OK, sumSizes])

theorem length_free_file_descriptor (t : Table) (fd : Int) :
    (free_file_descriptor t fd).length = t.length := by
  unfold free_file_descriptor
  cases fileno_to_stream t fd <;> simp

theorem length_remount_file_system (retryOk : Bool) (re : String → Nat → Nat)
    (t : Table) : (remount_file_system retryOk re t).2.2.length = t.length := by
  unfold remount_file_system
  cases retryOk <;> simp

theorem length_check_remount {rn retryOk : Bool} {re : String → Nat → Nat}
    {t : Table} {b : Bool} {t1 : Table}
    (h : check_remount rn retryOk re t = some (b, t1)) :
    t1.length = t.length := by
  cases rn with
  | false =>
      rw [show check_remount false retryOk re t = some (false, t) from rfl] at h
      cases h
      rfl
  | true =>
      unfold check_remount at h
      rw [if_pos rfl] at h
      rcases hrm : remount_file_system retryOk re t with ⟨ok, rn2, t2⟩
      rw [hrm] at h
      cases ok with
      | false => cases h
      | true =>
          cases h
          have hl := length_remount_file_system retryOk re t
          rw [hrm] at hl
          exact hl

theorem length_new_file_descriptor (a : Bool) (t : Table) (p : String) :
    (new_file_descriptor a t p).2.2.length = t.length := by
  unfold new_file_descriptor
  cases firstFree t with
  | none => rfl
  | some i => cases a <;> simp

theorem length_fatfs_close (t : Table) (fd : Int) (cr : Nat) :
    (fatfs_close t fd cr).2.2.length = t.length := by
  unfold fatfs_close
  cases fileno_to_stream t fd with
  | none => rfl
  | some f =>
      by_cases h : cr ≠ FR_OK
      · rw [if_pos h]
        exact length_free_file_descriptor t fd
      · rw [if_neg h]
        exact length_free_file_descriptor t fd

theorem length_fatfs_open (rn retryOk retryAllowed allocOk : Bool)
    (reopen : String → Nat → Nat) (table : Table) (p : String) (flags : Nat)
    (fopen : Nat → Nat) (ls fs : Nat) :
    (fatfs_open rn retryOk retryAllowed allocOk reopen table p flags
      fopen ls fs).table.length = table.length := by
  unfold fatfs_open
  cases hcr : check_remount rn retryOk reopen table with
  | none => rfl
  | some q =>
      obtain ⟨rn1, t1⟩ := q
      have h1 := length_check_remount hcr
      rcases hnfd : new_file_descriptor allocOk t1 p with ⟨fd, e, t2⟩
      have h2 : t2.length = t1.length := by
        have h := length_new_file_descriptor allocOk t1 p
        rw [hnfd] at h
        exact h
      rcases hrm : remount_file_system retryOk reopen t2 with ⟨ok, rn2, t3⟩
      have h3 : t3.length = t2.length := by
        have h := length_remount_file_system retryOk reopen t2
        rw [hrm] at h
        exact h
      simp only [hnfd, hrm]
      have hfree2 := length_free_file_descriptor t2 fd
      have hfree3 := length_free_file_descriptor t3 fd
      by_cases hfd : fd < 0
      · rw [if_pos hfd]
        exact h2.trans h1
      · rw [if_neg hfd]
        by_cases hd : fopen 0 = FR_DISK_ERR ∧ retryAllowed = true
        · rw [if_pos hd]
          cases ok with
          | true =>
              rw [if_pos rfl]
              by_cases hres : fopen 1 ≠ FR_OK
              · rw [if_pos hres]
                simp only [length_free_file_descriptor]
                omega
              · rw [if_neg hres]
                by_cases hap : flags &&& O_APPEND ≠ 0
                · rw [if_pos hap]
                  by_cases hls : ls ≠ FR_OK
                  · rw [if_pos hls]
                    simp only [length_free_file_descriptor, List.length_set]
                    omega
                  · rw [if_neg hls]
                    simp only [List.length_set]
                    omega
                · rw [if_neg hap]
                  simp only [List.length_set]
                  omega
          | false =>
              rw [if_neg (by simp : ¬(false = true))]
              by_cases hres : fopen 0 ≠ FR_OK
              · rw [if_pos hres]
                simp only [length_free_file_descriptor]
                omega
              · rw [if_neg hres]
                by_cases hap : flags &&& O_APPEND ≠ 0
                · rw [if_pos hap]
                  by_cases hls : ls ≠ FR_OK
                  · rw [if_pos hls]
                    simp only [length_free_file_descriptor, List.length_set]
                    omega
                  · rw [if_neg hls]
                    simp only [List.length_set]
                    omega
                · rw [if_neg hap]
                  simp only [List.length_set]
                  omega
        · rw [if_neg hd]
          by_cases hres : fopen 0 ≠ FR_OK
          · rw [if_pos hres]
            simp only [length_free_file_descriptor]
            omega
          · rw [if_neg hres]
            by_cases hap : flags &&& O_APPEND ≠ 0
            · rw [if_pos hap]
              by_cases hls : ls ≠ FR_OK
              · rw [if_pos hls]
                simp only [length_free_file_descriptor, List.length_set]
                omega
              · rw [if_neg hls]
                simp only [List.length_set]
                omega
            · rw [if_neg hap]
              simp only [List.length_set]
              omega

theorem firstFree_spec : ∀ (t : Table) (i : Nat),
    firstFree t = some i → t.getD i none = none := by
  intro t
  induction t with
  | nil =>
      intro i h
      cases h
  | cons a rest ih =>
      intro i h
      cases a with
      | none =>
          rw [show firstFree (none :: rest) = some 0 from rfl] at h
          cases h
          rfl
      | some f =>
          rw [show firstFree (some f :: rest) = (firstFree rest).map (· + 1)
            from rfl] at h
          cases hf : firstFree rest with
          | none =>
              rw [hf] at h
              cases h
          | some j =>
              rw [hf] at h
              cases h
              show rest.getD j none = none
              exact ih j hf

theorem firstFree_none : ∀ t : Table, (∀ s ∈ t, s ≠ none) →
    firstFree t = none := by
  intro t
  induction t with
  | nil => intro _; rfl
  | cons a rest ih =>
      intro h
      cases a with
      | none => exact absurd rfl (h none (List.mem_cons_self _ _))
      | some f =>
          rw [show firstFree (some f :: rest) = (firstFree rest).map (· + 1)
            from rfl]
          rw [ih (fun s hs => h s (List.mem_cons_of_mem _ hs))]
          rfl

/-- C7: for every sequence of `open`/`close` calls the handle table keeps
    its fixed size of `MAX_FILES` (16) slots; an allocation that returns a
    descriptor always picked a slot that was free; with every slot
    occupied, `new_file_descriptor` fails with `ENFILE` leaving the table
    untouched, and the whole `open` (with the remount flag clear) fails
    with `ENFILE`, returns the table unchanged, and never reaches the
    backend `f_open`. -/
theorem handle_table_capacity :
    (∀ (ops : List FSOp) (rn : Bool) (table : Table),
      table.length = MAX_FILES → (run_ops rn table ops).2.length = MAX_FILES) ∧
    (∀ (allocOk : Bool) (table : Table) (p : String) (i : Nat),
      (new_file_descriptor allocOk table p).1 = Int.ofNat i →
      table.getD i none = none) ∧
    (∀ (allocOk : Bool) (table : Table) (p : String),
      (∀ s ∈ table, s ≠ none) →
      new_file_descriptor allocOk table p = (-1, ENFILE, table)) ∧
    (∀ (retryOk retryAllowed allocOk : Bool) (reopen : String → Nat → Nat)
        (table : Table) (p : String) (flags : Nat) (fopen : Nat → Nat) (ls fs : Nat),
      (∀ s ∈ table, s ≠ none) →
      fatfs_open false retryOk retryAllowed allocOk reopen table p flags fopen ls fs =
        ⟨-1, ENFILE, false, table, false⟩) := by
  have hfull : ∀ (allocOk : Bool) (table : Table) (p : String),
      (∀ s ∈ table, s ≠ none) →
      new_file_descriptor allocOk table p = (-1, ENFILE, table) := by
    intro allocOk table p h
    unfold new_file_descriptor
    rw [firstFree_none table h]
  refine ⟨?_, ?_, hfull, ?_⟩
  · intro ops
    induction ops with
    | nil =>
        intro rn table h
        exact h
    | cons op rest ih =>
        intro rn table h
        show (run_ops (run_op rn table op).1 (run_op rn table op).2 rest).2.length
          = MAX_FILES
        apply ih
        cases op with
        | openOp p flags rOk rAll aOk reopen fopen ls fs =>
            show (fatfs_open rn rOk rAll aOk reopen table p flags
              fopen ls fs).table.length = MAX_FILES
            rw [length_fatfs_open]
            exact h
        | closeOp fd cr =>
            show (fatfs_close table fd cr).2.2.length = MAX_FILES
            rw [length_fatfs_close]
            exact h
  · intro allocOk table p i h
    unfold new_file_descriptor at h
    cases hf : firstFree table with
    | none =>
        rw [hf] at h
        exact absurd h (by simp)
    | some j =>
        rw [hf] at h
        cases allocOk with
        | false =>
            exact absurd h (by simp)
        | true =>
            have hji : j = i := by
              have h2 : ((j : Int) = (i : Int)) := h
              exact_mod_cast h2
            subst hji
            exact firstFree_spec table j hf
  · intro retryOk retryAllowed allocOk reopen table p flags fopen ls fs h
    have hnfd := hfull allocOk table p h
    simp only [fatfs_open,
      show check_remount false retryOk reopen table = some (false, table) from rfl,
      hnfd]
    rw [if_pos (by decide : (-1 : Int) < 0)]

/-- Witness for C7: two opens on an empty 16-slot table keep the table at
    16 slots, and one more open on a fully occupied table fails with
    `ENFILE` leaving the table unchanged. -/
theorem handle_table_capacity_witness :
    (run_ops false (List.replicate 16 none)
      [FSOp.openOp "a" 0 true false true (fun _ _ => FR_OK) (fun _ => FR_OK) 0 0,
       FSOp.openOp "b" 0 true false true (fun _ _ => FR_OK) (fun _ => FR_OK) 0 0]).2.length
      = MAX_FILES ∧
    new_file_descriptor true
        (List.replicate 16 (some ⟨⟨0, 0⟩, "x"⟩)) "y" =
      (-1, ENFILE, List.replicate 16 (some ⟨⟨0, 0⟩, "x"⟩)) := by
  constructor
  · exact handle_table_capacity.1 _ false (List.replicate 16 none) (by decide)
  · exact handle_table_capacity.2.2.1 true (List.replicate 16 (some ⟨⟨0, 0⟩, "x"⟩))
      "y" (by
        intro s hs
        rw [List.eq_of_mem_replicate hs]
        exact Option.some_ne_none _)

end ArduFS
